import Mathlib

/-!
Verification of the caesar-elo rating/ranking core.

This file gives a shallow embedding of the algorithmic core of the
repository and proves the specified properties about it:

* `submit_comparison` embeds the ELO update of
  `backend/api/routes.py::submit_comparison` (lines 195-245).  Python
  floats are modelled as real numbers; `10 ** x` on floats is real
  exponentiation (`Real.rpow`, written `(10:ℝ) ^ x`).  The mutated ORM
  rows and the audit deltas of the `Comparison` record are packaged in
  a `ComparisonResult` value; an HTTP 400 rejection is the `Except`
  error case.
* `get_comparison_pair` embeds
  `backend/api/routes.py::get_comparison_pair` (lines 176-192); the
  outcome of `random.sample(websites, 2)` is modelled by the pair of
  distinct positions the sampler picked, passed as arguments.
* `fetchLoop` / `search_places_postprocess` embed the pagination loop
  and the sort/rank/truncate post-processing of
  `backend/services/google_places.py::search_places_text`.
-/

namespace CaesarElo

/-- The rateable entity: the subset of the `Website` ORM model
(`backend/models.py`) that the comparison endpoint reads and writes.
Python's float rating is modelled as a real number; the counters are
naturals (non-negative integers). -/
structure Website where
  id : ℤ
  elo_rating : ℝ
  matches_played : ℕ
  wins : ℕ
  losses : ℕ

/-- Python truthiness of the `Optional[int]` field `winner_id`:
`None` and `0` are falsy, every other integer is truthy.  This is the
test performed by `if comparison.winner_id:` in the route. -/
def intTruthy : Option ℤ → Bool
  | none => false
  | some n => n != 0

/-- The membership test `comparison.winner_id not in [website_a.id,
website_b.id]` (negated): the submitted winner equals one of the two
compared ids. -/
def winnerIn (w : Option ℤ) (a b : ℤ) : Prop :=
  w = some a ∨ w = some b

instance (w : Option ℤ) (a b : ℤ) : Decidable (winnerIn w a b) := by
  unfold winnerIn
  infer_instance

/-- The error raised by `submit_comparison` when a truthy `winner_id`
matches neither compared website (HTTP 400 "Winner must be one of the
compared websites"); the spec calls it `InvalidOutcome`. -/
inductive SubmitError where
  | invalidWinner
  deriving DecidableEq

/-- What a successful `submit_comparison` leaves behind: the two
mutated `Website` rows, and the audit deltas `elo_change_a`,
`elo_change_b` stored on the new `Comparison` record. -/
structure ComparisonResult where
  website_a : Website
  website_b : Website
  elo_change_a : ℝ
  elo_change_b : ℝ

/-- The logistic expected score of entity A:
`expected_a = 1 / (1 + 10 ** ((rating_b - rating_a) / 400))`
(routes.py line 214). -/
noncomputable def expectedScore (rating_a rating_b : ℝ) : ℝ :=
  1 / (1 + (10 : ℝ) ^ ((rating_b - rating_a) / 400))

/-- Embedding of `backend/api/routes.py::submit_comparison` (lines
205-245), after the two websites have been looked up.  Mirrors the
source line by line: the 400 guard tests truthiness of `winner_id` and
non-membership in the pair; the ELO block runs only for a truthy
`winner_id`; the branch on `winner_id == website_a.id` selects who
won. -/
noncomputable def submit_comparison (website_a website_b : Website)
    (winner_id : Option ℤ) : Except SubmitError ComparisonResult :=
  if intTruthy winner_id = true ∧ ¬ winnerIn winner_id website_a.id website_b.id then
    .error .invalidWinner
  else
    if intTruthy winner_id = true then
      let K : ℝ := 32
      let expected_a := expectedScore website_a.elo_rating website_b.elo_rating
      let expected_b := 1 - expected_a
      if winner_id = some website_a.id then
        let elo_change_a := K * (1 - expected_a)
        let elo_change_b := K * (0 - expected_b)
        .ok { website_a := { website_a with
                elo_rating := website_a.elo_rating + elo_change_a
                wins := website_a.wins + 1
                matches_played := website_a.matches_played + 1 }
              website_b := { website_b with
                elo_rating := website_b.elo_rating + elo_change_b
                losses := website_b.losses + 1
                matches_played := website_b.matches_played + 1 }
              elo_change_a := elo_change_a
              elo_change_b := elo_change_b }
      else
        let elo_change_a := K * (0 - expected_a)
        let elo_change_b := K * (1 - expected_b)
        .ok { website_a := { website_a with
                elo_rating := website_a.elo_rating + elo_change_a
                losses := website_a.losses + 1
                matches_played := website_a.matches_played + 1 }
              website_b := { website_b with
                elo_rating := website_b.elo_rating + elo_change_b
                wins := website_b.wins + 1
                matches_played := website_b.matches_played + 1 }
              elo_change_a := elo_change_a
              elo_change_b := elo_change_b }
    else
      .ok { website_a := website_a
            website_b := website_b
            elo_change_a := 0
            elo_change_b := 0 }

/-- A sequence of comparison submissions on the same pair: each
element is the `winner_id` of one POST to `/compare`, applied to the
entities as updated by the previous submissions (the persistence layer
hands the updated rows to the next call).  Stops at the first
error. -/
noncomputable def submitFold (website_a website_b : Website) :
    List (Option ℤ) → Except SubmitError (Website × Website)
  | [] => .ok (website_a, website_b)
  | w :: ws =>
    match submit_comparison website_a website_b w with
    | .error e => .error e
    | .ok r => submitFold r.website_a r.website_b ws

/-- A parsed place, class `PlaceResult` of
`backend/services/google_places.py` (lines 20-47).  The optional
rating score (a float only carried through, never computed with) is
modelled as an optional rational. -/
structure PlaceResult where
  google_place_id : String
  name : String
  rating_count : ℕ
  rating_score : Option ℚ
  website_url : Option String
  rank : ℕ
  deriving DecidableEq

/-- One raw place record of a page of the external search response:
each field the parser reads may be absent.  `displayNameText` stands
for `place.get("displayName", {}).get("text", ...)`: it is `none` when
either the `displayName` object or its `text` key is missing. -/
structure RawPlace where
  id : Option String
  displayNameText : Option String
  userRatingCount : Option ℕ
  rating : Option ℚ
  websiteUri : Option String
  deriving DecidableEq

/-- Parsing of one raw record into a `PlaceResult`
(google_places.py lines 136-147): every optional field falls back to a
default (`""`, `"Unknown"`, `0`) or stays optional; no record is
dropped. -/
def parsePlace (place : RawPlace) : PlaceResult :=
  { google_place_id := place.id.getD ""
    name := place.displayNameText.getD "Unknown"
    rating_count := place.userRatingCount.getD 0
    rating_score := place.rating
    website_url := place.websiteUri
    rank := 0 }

/-- Parsing of one whole page: the body of the `for place in places`
loop, which appends `parsePlace` of every record to the accumulator. -/
def parsePage (places : List RawPlace) : List PlaceResult :=
  places.map parsePlace

/-- One successful page response of the external text-search API: the
`places` array (absent modelled as `[]`, as `data.get("places", [])`
does) and the optional `nextPageToken`. -/
structure PageResponse where
  places : List RawPlace
  nextPageToken : Option String

/-- Python truthiness of the optional continuation token, the test in
`if next_page_token:`: `None` and the empty string are falsy. -/
def tokenTruthy : Option String → Bool
  | none => false
  | some s => !s.isEmpty

/-- The paginated fetch loop of
`backend/services/google_places.py::search_places_text` (lines
96-155), on its success path.  Since the requests are strictly
sequential, the external API is modelled as a map from the request
index to the page response; `k` counts the requests issued so far, and
the second component of the result is the total number of requests
issued.  The loop body runs only while the accumulator is shorter than
`maxResults`; after appending a page it breaks unless the token is
truthy and the page was non-empty. -/
def fetchLoop (api : ℕ → PageResponse) (maxResults : ℕ) (k : ℕ)
    (acc : List PlaceResult) : List PlaceResult × ℕ :=
  if h : acc.length < maxResults then
    if h2 : tokenTruthy (api k).nextPageToken = true ∧ (api k).places ≠ [] then
      fetchLoop api maxResults (k + 1) (acc ++ parsePage (api k).places)
    else
      (acc ++ parsePage (api k).places, k + 1)
  else
    (acc, k)
termination_by maxResults - acc.length
decreasing_by
  have hne : (api k).places.length ≠ 0 := by
    simpa [List.length_eq_zero] using h2.2
  simp only [List.length_append, parsePage, List.length_map]
  omega

/-- The comparator of `all_places.sort(key=lambda p: p.rating_count,
reverse=True)`: `a` may come before `b` exactly when `a`'s popularity
count is at least `b`'s. -/
def countGE (a b : PlaceResult) : Prop :=
  b.rating_count ≤ a.rating_count

instance : DecidableRel countGE := fun a b => by
  unfold countGE
  infer_instance

instance : IsTotal PlaceResult countGE :=
  ⟨fun a b => Nat.le_total b.rating_count a.rating_count⟩

instance : IsTrans PlaceResult countGE :=
  ⟨fun _ _ _ hab hbc => Nat.le_trans hbc hab⟩

/-- Python's `list.sort(key=lambda p: p.rating_count, reverse=True)`
is a stable sort by descending popularity count (`reverse=True` does
not reorder ties).  A stable sort's output is uniquely
determined by the input and the comparator, so it is embedded by
insertion sort with `countGE` (stable: each earlier element is
inserted in front of the later elements it ties with); the theorems
below prove the sortedness, stability and permutation properties that
pin this down. -/
def sortByCountDesc (l : List PlaceResult) : List PlaceResult :=
  l.insertionSort countGE

/-- The rank-assignment loop `for idx, place in
enumerate(all_places): place.rank = idx + 1` (lines 161-162), started
at `n = 0`. -/
def assignRanks (n : ℕ) : List PlaceResult → List PlaceResult
  | [] => []
  | p :: ps => { p with rank := n + 1 } :: assignRanks (n + 1) ps

/-- The post-loop processing of `search_places_text` (lines 157-164):
stable sort by popularity descending, assign 1-based ranks in sorted
order, truncate to `max_results`. -/
def search_places_postprocess (all_places : List PlaceResult)
    (max_results : ℕ) : List PlaceResult :=
  (assignRanks 0 (sortByCountDesc all_places)).take max_results

/-- The whole success path of `search_places_text`: run the fetch
loop from an empty accumulator, then post-process. -/
def search_places_text (api : ℕ → PageResponse) (max_results : ℕ) :
    List PlaceResult :=
  search_places_postprocess (fetchLoop api max_results 0 []).1 max_results

/-- The error of `get_comparison_pair` when fewer than two websites
exist (HTTP 400 "Need at least 2 websites to compare"); the spec calls
it `InsufficientEntities`. -/
inductive PairError where
  | insufficientEntities
  deriving DecidableEq

noncomputable instance : Inhabited Website :=
  ⟨⟨0, default, 0, 0, 0⟩⟩

/-- Embedding of `backend/api/routes.py::get_comparison_pair` (lines
176-192).  `random.sample(websites, 2)` draws two distinct positions
of the list; the positions `i` and `j` it picked are passed in as
arguments, so every theorem quantifying over valid `i ≠ j` covers
every outcome of the random choice. -/
noncomputable def get_comparison_pair (websites : List Website)
    (i j : ℕ) : Except PairError (Website × Website) :=
  if websites.length < 2 then
    .error .insufficientEntities
  else
    .ok (websites.getD i default, websites.getD j default)

/-! ### Helper lemmas about `submit_comparison` -/

/-- Unfolding of `submit_comparison` when the submitted winner is
falsy (`None` or `0`): the skip branch runs. -/
theorem submit_skip_eq (wa wb : Website) (w : Option ℤ)
    (hw : intTruthy w = false) :
    submit_comparison wa wb w =
      .ok { website_a := wa, website_b := wb
            elo_change_a := 0, elo_change_b := 0 } := by
  unfold submit_comparison
  rw [if_neg (by simp [hw]), if_neg (by simp [hw])]

/-- Unfolding of `submit_comparison` when A wins. -/
theorem submit_winner_a_eq (wa wb : Website) (ha : wa.id ≠ 0) :
    submit_comparison wa wb (some wa.id) =
      .ok { website_a := { wa with
              elo_rating := wa.elo_rating +
                32 * (1 - expectedScore wa.elo_rating wb.elo_rating)
              wins := wa.wins + 1
              matches_played := wa.matches_played + 1 }
            website_b := { wb with
              elo_rating := wb.elo_rating +
                32 * (0 - (1 - expectedScore wa.elo_rating wb.elo_rating))
              losses := wb.losses + 1
              matches_played := wb.matches_played + 1 }
            elo_change_a := 32 * (1 - expectedScore wa.elo_rating wb.elo_rating)
            elo_change_b := 32 * (0 - (1 - expectedScore wa.elo_rating wb.elo_rating)) } := by
  unfold submit_comparison
  rw [if_neg (by simp [winnerIn]), if_pos (by simp [intTruthy, ha]),
    if_pos rfl]

/-- Unfolding of `submit_comparison` when B wins (the ids must differ,
otherwise the `winner_id == website_a.id` test sends the submission
down the A branch). -/
theorem submit_winner_b_eq (wa wb : Website) (hb : wb.id ≠ 0)
    (hne : wb.id ≠ wa.id) :
    submit_comparison wa wb (some wb.id) =
      .ok { website_a := { wa with
              elo_rating := wa.elo_rating +
                32 * (0 - expectedScore wa.elo_rating wb.elo_rating)
              losses := wa.losses + 1
              matches_played := wa.matches_played + 1 }
            website_b := { wb with
              elo_rating := wb.elo_rating +
                32 * (1 - (1 - expectedScore wa.elo_rating wb.elo_rating))
              wins := wb.wins + 1
              matches_played := wb.matches_played + 1 }
            elo_change_a := 32 * (0 - expectedScore wa.elo_rating wb.elo_rating)
            elo_change_b := 32 * (1 - (1 - expectedScore wa.elo_rating wb.elo_rating)) } := by
  unfold submit_comparison
  rw [if_neg (by simp [winnerIn]), if_pos (by simp [intTruthy, hb]),
    if_neg (by simp [hne])]

/-- Case analysis of every successful submission: it is a skip, an
A-win, or a B-win, each with the exact field updates of the source. -/
theorem submit_ok_shape (wa wb : Website) (w : Option ℤ)
    (r : ComparisonResult) (h : submit_comparison wa wb w = .ok r) :
    (intTruthy w = false ∧
      r = { website_a := wa, website_b := wb
            elo_change_a := 0, elo_change_b := 0 }) ∨
    (intTruthy w = true ∧ ∃ ca cb : ℝ,
      r = { website_a := { wa with
              elo_rating := wa.elo_rating + ca
              wins := wa.wins + 1
              matches_played := wa.matches_played + 1 }
            website_b := { wb with
              elo_rating := wb.elo_rating + cb
              losses := wb.losses + 1
              matches_played := wb.matches_played + 1 }
            elo_change_a := ca, elo_change_b := cb } ∧
      ca + cb = 0) ∨
    (intTruthy w = true ∧ ∃ ca cb : ℝ,
      r = { website_a := { wa with
              elo_rating := wa.elo_rating + ca
              losses := wa.losses + 1
              matches_played := wa.matches_played + 1 }
            website_b := { wb with
              elo_rating := wb.elo_rating + cb
              wins := wb.wins + 1
              matches_played := wb.matches_played + 1 }
            elo_change_a := ca, elo_change_b := cb } ∧
      ca + cb = 0) := by
  unfold submit_comparison at h
  by_cases ht : intTruthy w = true
  · rw [if_pos ht] at h
    split at h
    · exact absurd h (by simp)
    · split at h
      · simp only [Except.ok.injEq] at h
        subst h
        exact Or.inr (Or.inl ⟨ht,
          32 * (1 - expectedScore wa.elo_rating wb.elo_rating),
          32 * (0 - (1 - expectedScore wa.elo_rating wb.elo_rating)),
          rfl, by ring⟩)
      · simp only [Except.ok.injEq] at h
        subst h
        exact Or.inr (Or.inr ⟨ht,
          32 * (0 - expectedScore wa.elo_rating wb.elo_rating),
          32 * (1 - (1 - expectedScore wa.elo_rating wb.elo_rating)),
          rfl, by ring⟩)
  · rw [if_neg (by simp [ht]), if_neg ht] at h
    simp only [Except.ok.injEq] at h
    exact Or.inl ⟨by simpa using ht, h.symm⟩

/-- Every successful submission returns deltas summing to exactly
zero in the real-valued model (skips return 0 and 0; decisive results
return `K*(1-e_a)` and `K*(0-e_b)` with `e_b = 1 - e_a`, or the
swapped pair). -/
theorem submit_ok_sum_zero (wa wb : Website) (w : Option ℤ)
    (r : ComparisonResult) (h : submit_comparison wa wb w = .ok r) :
    r.elo_change_a + r.elo_change_b = 0 := by
  rcases submit_ok_shape wa wb w r h with ⟨_, rfl⟩ |
    ⟨_, ca, cb, rfl, hsum⟩ | ⟨_, ca, cb, rfl, hsum⟩
  · simp
  · simpa using hsum
  · simpa using hsum

/-- A decisive submission (truthy winner matching one side) always
succeeds. -/
theorem submit_decisive_ok (wa wb : Website) (w : ℤ) (hw : w ≠ 0)
    (hmatch : w = wa.id ∨ w = wb.id) :
    ∃ r, submit_comparison wa wb (some w) = .ok r := by
  by_cases hia : w = wa.id
  · exact ⟨_, hia ▸ submit_winner_a_eq wa wb (hia ▸ hw)⟩
  · rcases hmatch with hia' | hib
    · exact absurd hia' hia
    · exact ⟨_, hib ▸ submit_winner_b_eq wa wb (hib ▸ hw)
        (fun hba => hia (hib.trans hba))⟩

/-! ### Claim theorems: the ELO comparison endpoint -/

/-- Claim C1: for any two entities and a non-zero winner id equal to
A's id, the update computes the logistic expected scores, applies
`delta_a = 32*(1 - expected_a)` and `delta_b = 32*(0 - expected_b)`
with `expected_b = 1 - expected_a`, increments A's wins, B's losses,
and both matches_played; symmetrically (with `delta_a = 32*(0 -
expected_a)`, `delta_b = 32*(1 - expected_b)`) when the winner is B
and the ids differ. -/
theorem elo_decisive_update (wa wb : Website) (ha : wa.id ≠ 0)
    (hb : wb.id ≠ 0) :
    (submit_comparison wa wb (some wa.id) =
      .ok { website_a := { wa with
              elo_rating := wa.elo_rating +
                32 * (1 - expectedScore wa.elo_rating wb.elo_rating)
              wins := wa.wins + 1
              matches_played := wa.matches_played + 1 }
            website_b := { wb with
              elo_rating := wb.elo_rating +
                32 * (0 - (1 - expectedScore wa.elo_rating wb.elo_rating))
              losses := wb.losses + 1
              matches_played := wb.matches_played + 1 }
            elo_change_a := 32 * (1 - expectedScore wa.elo_rating wb.elo_rating)
            elo_change_b := 32 * (0 - (1 - expectedScore wa.elo_rating wb.elo_rating)) }) ∧
    (wb.id ≠ wa.id →
      submit_comparison wa wb (some wb.id) =
        .ok { website_a := { wa with
                elo_rating := wa.elo_rating +
                  32 * (0 - expectedScore wa.elo_rating wb.elo_rating)
                losses := wa.losses + 1
                matches_played := wa.matches_played + 1 }
              website_b := { wb with
                elo_rating := wb.elo_rating +
                  32 * (1 - (1 - expectedScore wa.elo_rating wb.elo_rating))
                wins := wb.wins + 1
                matches_played := wb.matches_played + 1 }
              elo_change_a := 32 * (0 - expectedScore wa.elo_rating wb.elo_rating)
              elo_change_b := 32 * (1 - (1 - expectedScore wa.elo_rating wb.elo_rating)) }) :=
  ⟨submit_winner_a_eq wa wb ha, fun hne => submit_winner_b_eq wa wb hb hne⟩

/-- Witness for C1, the end-to-end scenario of the spec: both ratings
1000, A (id 1) beats B (id 2): expected score 1/2, deltas +16 and -16,
ratings 1016 and 984, A's wins and B's losses 1, both
matches_played 1. -/
theorem elo_decisive_update_witness :
    expectedScore 1000 1000 = 1 / 2 ∧
    submit_comparison ⟨1, 1000, 0, 0, 0⟩ ⟨2, 1000, 0, 0, 0⟩ (some 1) =
      .ok { website_a := ⟨1, 1016, 1, 1, 0⟩
            website_b := ⟨2, 984, 1, 0, 1⟩
            elo_change_a := 16
            elo_change_b := -16 } := by
  have hexp : expectedScore 1000 1000 = 1 / 2 := by
    norm_num [expectedScore, Real.rpow_zero]
  have h := (elo_decisive_update ⟨1, 1000, 0, 0, 0⟩ ⟨2, 1000, 0, 0, 0⟩
    (by decide) (by decide)).1
  refine ⟨hexp, ?_⟩
  rw [h]
  norm_num [hexp]

/-- Claim C3: submitting with no winner (`None`) is a no-op: both
entities are returned unchanged and both deltas are exactly 0. -/
theorem skip_preserves_state (wa wb : Website) :
    submit_comparison wa wb none =
      .ok { website_a := wa, website_b := wb
            elo_change_a := 0, elo_change_b := 0 } :=
  submit_skip_eq wa wb none rfl

/-- Claim C4: a non-zero winner id matching neither entity is rejected
with the InvalidOutcome error; no updated entities and no outcome
record are produced (the error case carries no result state). -/
theorem invalid_winner_rejected (wa wb : Website) (w : ℤ) (hw : w ≠ 0)
    (hna : w ≠ wa.id) (hnb : w ≠ wb.id) :
    submit_comparison wa wb (some w) = .error .invalidWinner := by
  unfold submit_comparison
  rw [if_pos ⟨by simp [intTruthy, hw], by simp [winnerIn, hna, hnb]⟩]

/-- Witness for C4: websites with ids 1 and 2 and winner id 3. -/
theorem invalid_winner_rejected_witness :
    submit_comparison ⟨1, 1000, 0, 0, 0⟩ ⟨2, 1000, 0, 0, 0⟩ (some 3) =
      .error .invalidWinner :=
  invalid_winner_rejected ⟨1, 1000, 0, 0, 0⟩ ⟨2, 1000, 0, 0, 0⟩ 3
    (by decide) (by decide) (by decide)

/-- Claim C5: every decisive outcome (non-zero winner matching one of
the pair) succeeds and returns deltas whose sum is within 1e-9 of 0
(in the real-valued model of the shared-K computation the sum is
exactly 0). -/
theorem decisive_zero_sum (wa wb : Website) (w : ℤ) (hw : w ≠ 0)
    (hmatch : w = wa.id ∨ w = wb.id) :
    ∃ r, submit_comparison wa wb (some w) = .ok r ∧
      |r.elo_change_a + r.elo_change_b| ≤ 1e-9 := by
  obtain ⟨r, hr⟩ := submit_decisive_ok wa wb w hw hmatch
  refine ⟨r, hr, ?_⟩
  rw [submit_ok_sum_zero wa wb (some w) r hr]
  norm_num

/-- Witness for C5: the deltas of the concrete 1000-vs-1000 match with
winner id 1 sum to within 1e-9 of zero. -/
theorem decisive_zero_sum_witness :
    ∃ r, submit_comparison ⟨1, 1000, 0, 0, 0⟩ ⟨2, 1000, 0, 0, 0⟩ (some 1) =
      .ok r ∧ |r.elo_change_a + r.elo_change_b| ≤ 1e-9 :=
  decisive_zero_sum ⟨1, 1000, 0, 0, 0⟩ ⟨2, 1000, 0, 0, 0⟩ 1
    (by decide) (Or.inl rfl)

/-- Claim C10: a submitted winner id of `0` that matches neither
entity is not rejected: Python truthiness makes both the 400 guard and
the decisive branch skip it, so it is processed as a skip with zero
deltas and unchanged entities. -/
theorem zero_winner_is_skip (wa wb : Website) (ha : wa.id ≠ 0)
    (hb : wb.id ≠ 0) :
    submit_comparison wa wb (some 0) =
      .ok { website_a := wa, website_b := wb
            elo_change_a := 0, elo_change_b := 0 } :=
  submit_skip_eq wa wb (some 0) rfl

/-- Witness for C10: websites with ids 1 and 2 and winner id 0. -/
theorem zero_winner_is_skip_witness :
    submit_comparison ⟨1, 1000, 0, 0, 0⟩ ⟨2, 1000, 0, 0, 0⟩ (some 0) =
      .ok { website_a := ⟨1, 1000, 0, 0, 0⟩
            website_b := ⟨2, 1000, 0, 0, 0⟩
            elo_change_a := 0, elo_change_b := 0 } :=
  zero_winner_is_skip ⟨1, 1000, 0, 0, 0⟩ ⟨2, 1000, 0, 0, 0⟩
    (by decide) (by decide)

/-- Iterating submissions on one pair: every submission in a run of
valid outcomes succeeds, and each side's `matches_played` grows by
exactly the number of decisive (truthy-winner) submissions in the
run. -/
theorem submitFold_matches : ∀ (ws : List (Option ℤ)) (wa wb : Website),
    wa.id ≠ wb.id → wa.id ≠ 0 → wb.id ≠ 0 →
    (∀ w ∈ ws, w = none ∨ w = some wa.id ∨ w = some wb.id) →
    ∃ p, submitFold wa wb ws = .ok p ∧
      p.1.matches_played = wa.matches_played + ws.countP (fun w => w.isSome) ∧
      p.2.matches_played = wb.matches_played + ws.countP (fun w => w.isSome)
  | [], wa, wb, _, _, _, _ => ⟨(wa, wb), rfl, by simp, by simp⟩
  | w :: ws, wa, wb, hne, ha, hb, hvalid => by
    have hvalid' : ∀ v ∈ ws, v = none ∨ v = some wa.id ∨ v = some wb.id :=
      fun v hv => hvalid v (List.mem_cons_of_mem _ hv)
    rcases hvalid w (List.mem_cons_self _ _) with rfl | rfl | rfl
    · obtain ⟨p, hp, h1, h2⟩ := submitFold_matches ws wa wb hne ha hb hvalid'
      refine ⟨p, ?_, ?_, ?_⟩
      · simpa [submitFold, submit_skip_eq wa wb none rfl] using hp
      · simpa [List.countP_cons] using h1
      · simpa [List.countP_cons] using h2
    · obtain ⟨p, hp, h1, h2⟩ := submitFold_matches ws
        { wa with
          elo_rating := wa.elo_rating +
            32 * (1 - expectedScore wa.elo_rating wb.elo_rating)
          wins := wa.wins + 1
          matches_played := wa.matches_played + 1 }
        { wb with
          elo_rating := wb.elo_rating +
            32 * (0 - (1 - expectedScore wa.elo_rating wb.elo_rating))
          losses := wb.losses + 1
          matches_played := wb.matches_played + 1 }
        hne ha hb hvalid'
      refine ⟨p, ?_, ?_, ?_⟩
      · simpa [submitFold, submit_winner_a_eq wa wb ha] using hp
      · simp at h1 ⊢
        omega
      · simp at h2 ⊢
        omega
    · obtain ⟨p, hp, h1, h2⟩ := submitFold_matches ws
        { wa with
          elo_rating := wa.elo_rating +
            32 * (0 - expectedScore wa.elo_rating wb.elo_rating)
          losses := wa.losses + 1
          matches_played := wa.matches_played + 1 }
        { wb with
          elo_rating := wb.elo_rating +
            32 * (1 - (1 - expectedScore wa.elo_rating wb.elo_rating))
          wins := wb.wins + 1
          matches_played := wb.matches_played + 1 }
        hne ha hb hvalid'
      refine ⟨p, ?_, ?_, ?_⟩
      · simpa [submitFold, submit_winner_b_eq wa wb hb (Ne.symm hne)] using hp
      · simp at h1 ⊢
        omega
      · simp at h2 ⊢
        omega

/-- Claim C7: every successful submission preserves
`wins + losses = matches_played` for both entities and never
decreases any counter; a decisive submission increments
`matches_played` by exactly 1 on both sides and exactly one of
wins/losses per side; and a run of N valid submissions on one pair
raises each side's `matches_played` by exactly the number of decisive
submissions in the run. -/
theorem comparison_counter_invariants :
    (∀ (wa wb : Website) (w : Option ℤ) (r : ComparisonResult),
        submit_comparison wa wb w = .ok r →
        ((wa.wins + wa.losses = wa.matches_played →
            r.website_a.wins + r.website_a.losses = r.website_a.matches_played) ∧
          (wb.wins + wb.losses = wb.matches_played →
            r.website_b.wins + r.website_b.losses = r.website_b.matches_played) ∧
          wa.matches_played ≤ r.website_a.matches_played ∧
          wa.wins ≤ r.website_a.wins ∧ wa.losses ≤ r.website_a.losses ∧
          wb.matches_played ≤ r.website_b.matches_played ∧
          wb.wins ≤ r.website_b.wins ∧ wb.losses ≤ r.website_b.losses)) ∧
    (∀ (wa wb : Website) (w : Option ℤ) (r : ComparisonResult),
        intTruthy w = true → submit_comparison wa wb w = .ok r →
        (r.website_a.matches_played = wa.matches_played + 1 ∧
          r.website_b.matches_played = wb.matches_played + 1 ∧
          ((r.website_a.wins = wa.wins + 1 ∧ r.website_a.losses = wa.losses ∧
              r.website_b.wins = wb.wins ∧ r.website_b.losses = wb.losses + 1) ∨
            (r.website_a.wins = wa.wins ∧ r.website_a.losses = wa.losses + 1 ∧
              r.website_b.wins = wb.wins + 1 ∧ r.website_b.losses = wb.losses)))) ∧
    (∀ (ws : List (Option ℤ)) (wa wb : Website),
        wa.id ≠ wb.id → wa.id ≠ 0 → wb.id ≠ 0 →
        (∀ w ∈ ws, w = none ∨ w = some wa.id ∨ w = some wb.id) →
        ∃ p, submitFold wa wb ws = .ok p ∧
          p.1.matches_played = wa.matches_played + ws.countP (fun w => w.isSome) ∧
          p.2.matches_played = wb.matches_played + ws.countP (fun w => w.isSome)) := by
  refine ⟨?_, ?_, submitFold_matches⟩
  · intro wa wb w r h
    rcases submit_ok_shape wa wb w r h with ⟨_, rfl⟩ |
      ⟨_, ca, cb, rfl, _⟩ | ⟨_, ca, cb, rfl, _⟩ <;>
      simp <;> omega
  · intro wa wb w r ht h
    rcases submit_ok_shape wa wb w r h with ⟨hf, rfl⟩ |
      ⟨_, ca, cb, rfl, _⟩ | ⟨_, ca, cb, rfl, _⟩
    · exact absurd ht (by simp [hf])
    · simp
    · simp

/-- Witness for C7: websites with ids 1 and 2 submitted three times
(A wins, skip, B wins): both sides end with `matches_played = 2`, the
number of decisive submissions. -/
theorem comparison_counter_invariants_witness :
    ∃ p, submitFold ⟨1, 1000, 0, 0, 0⟩ ⟨2, 1000, 0, 0, 0⟩
        [some 1, none, some 2] = .ok p ∧
      p.1.matches_played = 2 ∧ p.2.matches_played = 2 := by
  obtain ⟨p, hp, h1, h2⟩ := comparison_counter_invariants.2.2
    [some 1, none, some 2] ⟨1, 1000, 0, 0, 0⟩ ⟨2, 1000, 0, 0, 0⟩
    (by decide) (by decide) (by decide) (by decide)
  exact ⟨p, hp, by simpa using h1, by simpa using h2⟩

/-- Claim C8: with fewer than two websites the pair endpoint fails
with the InsufficientEntities error; with at least two, every outcome
of the random draw (any two distinct positions `i ≠ j`) yields two
entities of the input list taken at those distinct positions, which
have different ids whenever the stored ids are pairwise distinct (as
database primary keys are). -/
theorem comparison_pair_selection :
    (∀ (websites : List Website) (i j : ℕ), websites.length < 2 →
        get_comparison_pair websites i j = .error .insufficientEntities) ∧
    (∀ (websites : List Website) (i j : ℕ) (hi : i < websites.length)
        (hj : j < websites.length), 2 ≤ websites.length → i ≠ j →
        get_comparison_pair websites i j =
          .ok (websites.get ⟨i, hi⟩, websites.get ⟨j, hj⟩) ∧
        websites.get ⟨i, hi⟩ ∈ websites ∧
        websites.get ⟨j, hj⟩ ∈ websites ∧
        ((websites.map Website.id).Nodup →
          (websites.get ⟨i, hi⟩).id ≠ (websites.get ⟨j, hj⟩).id)) := by
  constructor
  · intro websites i j h
    unfold get_comparison_pair
    rw [if_pos h]
  · intro websites i j hi hj hlen hij
    have hi' : i < (websites.map Website.id).length := by simpa using hi
    have hj' : j < (websites.map Website.id).length := by simpa using hj
    refine ⟨?_, List.get_mem _ _ hi, List.get_mem _ _ hj, ?_⟩
    · unfold get_comparison_pair
      rw [if_neg (by omega)]
      rw [List.getD_eq_getElem?_getD, List.getD_eq_getElem?_getD,
        List.getElem?_eq_getElem hi, List.getElem?_eq_getElem hj]
      simp [List.get_eq_getElem]
    · intro hnd heq
      apply hij
      have h1 : (websites.map Website.id)[i] =
          (websites.map Website.id)[j] := by
        rw [List.getElem_map, List.getElem_map]
        simpa [List.get_eq_getElem] using heq
      exact (List.Nodup.getElem_inj_iff hnd).mp h1

/-- Witness for C8: a two-element list with ids 1 and 2 and the draw
(0, 1) returns exactly those two websites. -/
theorem comparison_pair_selection_witness :
    get_comparison_pair [⟨1, 1000, 0, 0, 0⟩, ⟨2, 1000, 0, 0, 0⟩] 0 1 =
      .ok (⟨1, 1000, 0, 0, 0⟩, ⟨2, 1000, 0, 0, 0⟩) :=
  (comparison_pair_selection.2 [⟨1, 1000, 0, 0, 0⟩, ⟨2, 1000, 0, 0, 0⟩]
    0 1 (by decide) (by decide) (by decide) (by decide)).1

/-! ### Claim theorems: the place aggregation -/

/-- Claim C9: parsing a raw page keeps every record — the parsed page
has exactly one entry per raw record — and each parsed entry takes the
documented defaults for absent fields: name `"Unknown"`,
`rating_count` 0, identifier `""`; the optional rating score and
website URL are carried through unchanged.  Nothing is ever dropped,
in particular not for a missing optional field. -/
theorem raw_record_inclusion (places : List RawPlace) :
    (parsePage places).length = places.length ∧
    ∀ p ∈ places, parsePlace p ∈ parsePage places ∧
      (parsePlace p).google_place_id = p.id.getD "" ∧
      (parsePlace p).name = p.displayNameText.getD "Unknown" ∧
      (parsePlace p).rating_count = p.userRatingCount.getD 0 ∧
      (parsePlace p).rating_score = p.rating ∧
      (parsePlace p).website_url = p.websiteUri ∧
      (p.displayNameText = none → (parsePlace p).name = "Unknown") ∧
      (p.userRatingCount = none → (parsePlace p).rating_count = 0) ∧
      (p.id = none → (parsePlace p).google_place_id = "") := by
  refine ⟨by simp [parsePage], fun p hp => ?_⟩
  refine ⟨List.mem_map_of_mem parsePlace hp, rfl, rfl, rfl, rfl, rfl,
    fun h => ?_, fun h => ?_, fun h => ?_⟩ <;>
    simp [parsePlace, h]

/-- Witness for C9: a raw record with every field absent is parsed,
kept, and given the default name, count and identifier. -/
theorem raw_record_inclusion_witness :
    parsePlace ⟨none, none, none, none, none⟩ ∈
      parsePage [⟨none, none, none, none, none⟩] ∧
    (parsePlace ⟨none, none, none, none, none⟩).name = "Unknown" ∧
    (parsePlace ⟨none, none, none, none, none⟩).rating_count = 0 ∧
    (parsePlace ⟨none, none, none, none, none⟩).google_place_id = "" := by
  have h := (raw_record_inclusion [⟨none, none, none, none, none⟩]).2
    ⟨none, none, none, none, none⟩ (by simp)
  exact ⟨h.1, h.2.2.2.2.2.2.1 rfl, h.2.2.2.2.2.2.2.1 rfl,
    h.2.2.2.2.2.2.2.2 rfl⟩

/-- The number of page requests the fetch loop issues is bounded:
starting from request counter `k` it never goes past
`k + 1 + (maxResults - acc.length)`, because every continuing
iteration strictly grows the accumulator which the loop guard bounds
by `maxResults`.  This is the termination argument of the loop. -/
theorem fetchLoop_requests_le (api : ℕ → PageResponse) (m k : ℕ)
    (acc : List PlaceResult) :
    (fetchLoop api m k acc).2 ≤ k + 1 + (m - acc.length) := by
  by_cases h : acc.length < m
  · by_cases h2 : tokenTruthy (api k).nextPageToken = true ∧ (api k).places ≠ []
    · have hne : (api k).places.length ≠ 0 := by
        simpa [List.length_eq_zero] using h2.2
      have ih := fetchLoop_requests_le api m (k + 1)
        (acc ++ parsePage (api k).places)
      rw [fetchLoop, dif_pos h, dif_pos h2]
      simp only [List.length_append, parsePage, List.length_map] at ih ⊢
      omega
    · rw [fetchLoop, dif_pos h, dif_neg h2]
      dsimp only
      omega
  · rw [fetchLoop, dif_neg h]
    dsimp only
    omega
termination_by m - acc.length
decreasing_by
  simp only [List.length_append, parsePage, List.length_map]
  omega

/-- Claim C6: the paginated fetch loop always terminates — the total
request count is bounded — and it stops exactly at the first of the
three conditions: it issues no request once the accumulator reached
`maxResults`; after a page whose token is falsy or that was empty it
returns without further requests; otherwise it continues with exactly
one more request issued. -/
theorem pagination_loop_behavior (api : ℕ → PageResponse) (m k : ℕ)
    (acc : List PlaceResult) :
    (m ≤ acc.length → fetchLoop api m k acc = (acc, k)) ∧
    (acc.length < m →
      (tokenTruthy (api k).nextPageToken = false ∨ (api k).places = []) →
      fetchLoop api m k acc = (acc ++ parsePage (api k).places, k + 1)) ∧
    (acc.length < m → tokenTruthy (api k).nextPageToken = true →
      (api k).places ≠ [] →
      fetchLoop api m k acc =
        fetchLoop api m (k + 1) (acc ++ parsePage (api k).places)) ∧
    (fetchLoop api m k acc).2 ≤ k + 1 + (m - acc.length) := by
  refine ⟨fun h => ?_, fun h hstop => ?_, fun h ht hp => ?_,
    fetchLoop_requests_le api m k acc⟩
  · rw [fetchLoop, dif_neg (by omega)]
  · rw [fetchLoop, dif_pos h, dif_neg ?_]
    rcases hstop with hs | hs <;> simp [hs]
  · rw [fetchLoop, dif_pos h, dif_pos ⟨ht, hp⟩]

/-- Witness for C6: with an API that always answers an empty page and
no token, `max_results = 0` issues no request at all, and
`max_results = 60` issues exactly one request and stops. -/
theorem pagination_loop_behavior_witness :
    fetchLoop (fun _ => ⟨[], none⟩) 0 0 [] = ([], 0) ∧
    fetchLoop (fun _ => ⟨[], none⟩) 60 0 [] = ([], 1) := by
  refine ⟨(pagination_loop_behavior (fun _ => ⟨[], none⟩) 0 0 []).1
    (by decide), ?_⟩
  have h := (pagination_loop_behavior (fun _ => ⟨[], none⟩) 60 0 []).2.1
    (by decide) (Or.inl rfl)
  simpa [parsePage] using h

/-! ### Sorting, ranking and truncation -/

/-- Rank assignment does not change the number of records. -/
theorem assignRanks_length : ∀ (l : List PlaceResult) (n : ℕ),
    (assignRanks n l).length = l.length
  | [], _ => rfl
  | _ :: ps, n => by
    simp [assignRanks, assignRanks_length ps (n + 1)]

/-- The record at position `i` after rank assignment starting at `n`
is the original record with its rank set to `n + i + 1`. -/
theorem assignRanks_get : ∀ (l : List PlaceResult) (n i : ℕ)
    (hi : i < l.length) (hi2 : i < (assignRanks n l).length),
    (assignRanks n l).get ⟨i, hi2⟩ = { l.get ⟨i, hi⟩ with rank := n + i + 1 }
  | [], _, i, hi, _ => absurd hi (Nat.not_lt_zero i)
  | p :: ps, n, 0, _, _ => by simp [assignRanks]
  | p :: ps, n, i + 1, hi, hi2 => by
    have h3 : (n + 1) + i + 1 = n + (i + 1) + 1 := by omega
    simp only [assignRanks, List.get_cons_succ]
    rw [assignRanks_get ps (n + 1) i (by simpa using hi)
      (by simpa [assignRanks_length] using hi2), h3]

/-- Inserting `x` with the descending-count comparator, then keeping
only the records of one fixed count `c`: every record the insertion
walks past has a strictly larger count than `x`, so if `x` has count
`c` it lands in front of all retained records, and otherwise the
retained records are untouched. -/
theorem orderedInsert_filter_count (x : PlaceResult) (c : ℕ) :
    ∀ s : List PlaceResult,
      List.filter (fun p => p.rating_count == c)
          (s.orderedInsert countGE x) =
        if x.rating_count = c then
          x :: List.filter (fun p => p.rating_count == c) s
        else List.filter (fun p => p.rating_count == c) s
  | [] => by
    by_cases hx : x.rating_count = c <;>
      simp [List.orderedInsert, List.filter_cons, hx]
  | b :: t => by
    by_cases hr : countGE x b
    · simp only [List.orderedInsert, if_pos hr]
      by_cases hx : x.rating_count = c <;>
        simp [List.filter_cons, hx]
    · simp only [List.orderedInsert, if_neg hr]
      rw [List.filter_cons, orderedInsert_filter_count x c t]
      by_cases hx : x.rating_count = c
      · have hbc : ¬ b.rating_count = c := by
          unfold countGE at hr
          omega
        simp [hx, hbc, List.filter_cons]
      · by_cases hb2 : b.rating_count = c <;>
          simp [hx, hb2, List.filter_cons]

/-- Stability of the descending sort: for every count value `c`, the
records of count `c` appear in the sorted list exactly in their
original (fetch) order. -/
theorem sortByCountDesc_filter : ∀ (l : List PlaceResult) (c : ℕ),
    List.filter (fun p => p.rating_count == c) (sortByCountDesc l) =
      List.filter (fun p => p.rating_count == c) l
  | [], _ => rfl
  | x :: t, c => by
    have ih := sortByCountDesc_filter t c
    unfold sortByCountDesc at ih
    show List.filter _ ((List.insertionSort countGE t).orderedInsert countGE x) = _
    rw [orderedInsert_filter_count x c]
    by_cases hx : x.rating_count = c <;>
      simp [hx, List.filter_cons, ih]

/-- The sorted list is a permutation of the accumulated list. -/
theorem sortByCountDesc_perm (l : List PlaceResult) :
    List.Perm (sortByCountDesc l) l :=
  List.perm_insertionSort countGE l

/-- The sorted list is sorted by popularity count descending. -/
theorem sortByCountDesc_sorted (l : List PlaceResult) :
    List.Sorted countGE (sortByCountDesc l) :=
  List.sorted_insertionSort countGE l

/-- The record at position `i` of the post-processed output is the
`i`-th record of the stable descending sort, with rank `i + 1`. -/
theorem postprocess_get (l : List PlaceResult) (m i : ℕ)
    (hi2 : i < (search_places_postprocess l m).length)
    (hi : i < (sortByCountDesc l).length) :
    (search_places_postprocess l m).get ⟨i, hi2⟩ =
      { (sortByCountDesc l).get ⟨i, hi⟩ with rank := i + 1 } := by
  have hi3 : i < (assignRanks 0 (sortByCountDesc l)).length := by
    simpa [assignRanks_length] using hi
  have h0 : (0 : ℕ) + i + 1 = i + 1 := by omega
  simp only [search_places_postprocess, List.get_eq_getElem,
    List.getElem_take]
  rw [← List.get_eq_getElem (assignRanks 0 (sortByCountDesc l)) ⟨i, hi3⟩,
    assignRanks_get (sortByCountDesc l) 0 i hi hi3, h0]
  simp [List.get_eq_getElem]

/-- Claim C2: the aggregation output is the accumulated list stably
sorted by popularity count descending with dense 1-based ranks,
truncated to `max_results`: its length is `min max_results n`; the
record at position `i` has rank `i + 1`; ranks are strictly
increasing and counts non-increasing along the output; the underlying
sort is a permutation of the input that keeps tied records in their
original order; and with at least `max_results` accumulated records
the output has exactly `max_results` records ranked
`1..max_results`. -/
theorem aggregation_rank_order (l : List PlaceResult) (m : ℕ) :
    (search_places_postprocess l m).length = min m l.length ∧
    (∀ (i : ℕ) (hi : i < (search_places_postprocess l m).length),
      ((search_places_postprocess l m).get ⟨i, hi⟩).rank = i + 1) ∧
    (∀ (i j : ℕ) (hi : i < (search_places_postprocess l m).length)
      (hj : j < (search_places_postprocess l m).length), i < j →
      ((search_places_postprocess l m).get ⟨i, hi⟩).rank <
        ((search_places_postprocess l m).get ⟨j, hj⟩).rank ∧
      ((search_places_postprocess l m).get ⟨j, hj⟩).rating_count ≤
        ((search_places_postprocess l m).get ⟨i, hi⟩).rating_count) ∧
    List.Perm (sortByCountDesc l) l ∧
    (∀ c : ℕ, List.filter (fun p => p.rating_count == c)
        (sortByCountDesc l) =
      List.filter (fun p => p.rating_count == c) l) ∧
    (m ≤ l.length → (search_places_postprocess l m).length = m) := by
  have hlen : (search_places_postprocess l m).length = min m l.length := by
    simp [search_places_postprocess, assignRanks_length,
      List.length_insertionSort, sortByCountDesc]
  have hsortlen : (sortByCountDesc l).length = l.length := by
    simp [sortByCountDesc, List.length_insertionSort]
  have hget : ∀ (i : ℕ) (hi : i < (search_places_postprocess l m).length),
      i < (sortByCountDesc l).length := by
    intro i hi
    rw [hlen] at hi
    omega
  refine ⟨hlen, fun i hi => ?_, fun i j hi hj hij => ⟨?_, ?_⟩,
    sortByCountDesc_perm l, sortByCountDesc_filter l, fun h => by omega⟩
  · rw [postprocess_get l m i hi (hget i hi)]
  · rw [postprocess_get l m i hi (hget i hi),
      postprocess_get l m j hj (hget j hj)]
    simpa using hij
  · rw [postprocess_get l m i hi (hget i hi),
      postprocess_get l m j hj (hget j hj)]
    have hs := (sortByCountDesc_sorted l).rel_get_of_lt
      (Fin.mk_lt_mk.mpr hij : (⟨i, hget i hi⟩ : Fin _) < ⟨j, hget j hj⟩)
    simpa [countGE] using hs

/-- Witness for C2: 100 accumulated records (descending counts
99..0) with `max_results = 60` give exactly 60 output records; the
first two have ranks 1 and 2 and non-increasing counts. -/
theorem aggregation_rank_order_witness :
    (search_places_postprocess
      (((List.range 100).map
        (fun n => ⟨"", "", 99 - n, none, none, 0⟩)) : List PlaceResult)
      60).length = 60 ∧
    ∀ (h0 : 0 < (search_places_postprocess
        (((List.range 100).map
          (fun n => ⟨"", "", 99 - n, none, none, 0⟩)) : List PlaceResult)
        60).length)
      (h1 : 1 < (search_places_postprocess
        (((List.range 100).map
          (fun n => ⟨"", "", 99 - n, none, none, 0⟩)) : List PlaceResult)
        60).length),
      ((search_places_postprocess
        (((List.range 100).map
          (fun n => ⟨"", "", 99 - n, none, none, 0⟩)) : List PlaceResult)
        60).get ⟨0, h0⟩).rank = 1 ∧
      ((search_places_postprocess
        (((List.range 100).map
          (fun n => ⟨"", "", 99 - n, none, none, 0⟩)) : List PlaceResult)
        60).get ⟨1, h1⟩).rank = 2 ∧
      ((search_places_postprocess
        (((List.range 100).map
          (fun n => ⟨"", "", 99 - n, none, none, 0⟩)) : List PlaceResult)
        60).get ⟨1, h1⟩).rating_count ≤
      ((search_places_postprocess
        (((List.range 100).map
          (fun n => ⟨"", "", 99 - n, none, none, 0⟩)) : List PlaceResult)
        60).get ⟨0, h0⟩).rating_count := by
  have h := aggregation_rank_order
    (((List.range 100).map
      (fun n => ⟨"", "", 99 - n, none, none, 0⟩)) : List PlaceResult) 60
  refine ⟨h.2.2.2.2.2 (by simp), fun h0 h1 => ?_⟩
  have hp := h.2.2.1 0 1 h0 h1 (by omega)
  exact ⟨h.2.1 0 h0, h.2.1 1 h1, hp.2⟩

end CaesarElo
